import Mathlib

/-!
Verification of the constant-product liquidity-pool trade calculators from
exp/orderbook/pools.go.

The Go code performs all intermediate arithmetic in the 256-bit unsigned
integer type of github.com/holiman/uint256 (wrapping modulo 2^256), with the
signed 64-bit inputs first reinterpreted as uint64 values.  We embed that
arithmetic shallowly: a uint256 value is a Nat together with the invariant
that it is < 2^256, and every arithmetic operation reduces modulo 2^256
exactly as the library does.  Division and modulus by zero return 0 in the
library, matching Nat semantics at every call site (all call sites guard the
divisor, except the slippage division which the library defines as 0 on a
zero divisor, as does Nat).
-/

namespace Pools

/-- Modulus of the 256-bit wrapping arithmetic used for intermediates. -/
def u256 : Nat := 2 ^ 256

/-- math.MaxInt64. -/
def maxInt64 : Int := 2 ^ 63 - 1

/-- Go conversion uint64(v) of a signed 64-bit value v: reinterpret the two's
complement bit pattern as an unsigned number. -/
def toU64 (i : Int) : Nat := (i % (2 ^ 64 : Int)).toNat

/-- Go conversion xdr.Int64(u.Uint64()): take the low 64 bits of a wide value
and reinterpret them as a signed 64-bit number. -/
def toI64 (u : Nat) : Int :=
  if u % 2 ^ 64 < 2 ^ 63 then ((u % 2 ^ 64 : Nat) : Int)
  else ((u % 2 ^ 64 : Nat) : Int) - 2 ^ 64

/-- Wrapping signed 64-bit arithmetic (Go int64 two's complement). -/
def wrapI64 (z : Int) : Int := (z + 2 ^ 63) % 2 ^ 64 - 2 ^ 63

/-- uint256 addition (wraps modulo 2^256). -/
def uadd (a b : Nat) : Nat := (a + b) % u256

/-- uint256 subtraction (wraps modulo 2^256); callers always pass b < 2^256. -/
def usub (a b : Nat) : Nat := (a + u256 - b) % u256

/-- uint256 multiplication (wraps modulo 2^256). -/
def umul (a b : Nat) : Nat := a * b % u256

/-- uint256 Abs: absolute value of the argument read as a two's complement
signed 256-bit number. -/
def uabs (a : Nat) : Nat := if a < 2 ^ 255 then a else u256 - a

/-- Upscale factor: four extra decimal places of precision (pools.go). -/
def centibips : Nat := 10000

/-- Downscale factor from centibips to basis points (pools.go). -/
def bips : Nat := 100

/-- Translation of CalculatePoolPayout (pools.go lines 98-141).  Computes the
amount of reserveB disbursed for depositing `received` of reserveA, and
optionally the rounding slippage; the final Bool is the ok flag. -/
def CalculatePoolPayout (reserveA reserveB received feeBips : Int)
    (calculateRoundingSlippage : Bool) : Int × Int × Bool :=
  let X := toU64 reserveA
  let Y := toU64 reserveB
  let F := toU64 feeBips
  let x := toU64 received
  -- would this deposit overflow the reserve?
  if received > wrapI64 (maxInt64 - reserveA) then (0, 0, false)
  else
    let f := usub centibips F       -- upscaled 1 - F
    -- right half: X + (1 - F)x
    let denom := uadd (umul X centibips) (umul x f)
    if denom = 0 then (0, 0, false) -- guard against a zero denominator
    else
      -- left half: (1 - F) Y x
      let numer := umul (umul Y x) f
      let result := numer / denom
      let slip : Int × Bool :=
        if calculateRoundingSlippage ∧ numer % denom ≠ 0 then
          -- recalculate with more precision
          let unrounded := umul numer centibips / denom
          let rounded := umul result centibips
          let S1 := uabs (usub unrounded rounded)
          let S2 := umul S1 centibips
          let S3 := S2 / unrounded
          let S4 := S3 / bips       -- take off the excess 2 decimal places
          (toI64 S4, decide (S4 < 2 ^ 64 ∧ 0 ≤ toI64 S4))
        else (0, true)
      let val := toI64 result
      (val, slip.1, slip.2 && decide (result < 2 ^ 64 ∧ 0 ≤ val))

/-- Translation of poolExpectationCentibips (pools.go lines 221-251).
Returns none where the Go function returns ok = false, otherwise the upscaled
(ceiling-adjusted) required deposit together with the remainder used for the
ceiling adjustment. -/
def poolExpectationCentibips (reserveA reserveB disbursed feeBips : Int) :
    Option (Nat × Nat) :=
  let X := toU64 reserveA
  let Y := toU64 reserveB
  let F := toU64 feeBips
  let y := toU64 disbursed
  -- sanity check: disbursing must not underflow the reserve
  if disbursed ≥ reserveB then none
  else
    let f := usub centibips F            -- upscaled 1 - F
    let denom := umul (usub Y y) f       -- right half: (Y - y)(1 - F)
    if denom = 0 then none               -- guard against a zero denominator
    else
      let numer := umul (umul X y) centibips  -- left half: Xy
      -- upscale, then divide
      let result := umul numer centibips / denom
      let rem := result % centibips
      -- ceil: if there is a remainder, round up to the next upscaled unit
      if rem ≠ 0 then some (usub (uadd result centibips) rem, rem)
      else some (result, rem)

/-- Translation of calculatePoolExpectation (pools.go lines 149-161). -/
def calculatePoolExpectation (reserveA reserveB disbursed feeBips : Int) :
    Int × Bool :=
  match poolExpectationCentibips reserveA reserveB disbursed feeBips with
  | none => (0, false)
  | some (r, _) =>
    -- downscale back to stroops
    let result := r / centibips
    let val := toI64 result
    (val, decide (result < 2 ^ 64 ∧ 0 ≤ val))

/-- Translation of CalculatePoolExpectationRoundingSlippage
(pools.go lines 182-211). -/
def CalculatePoolExpectationRoundingSlippage
    (reserveA reserveB disbursed feeBips : Int) : Int × Bool :=
  match poolExpectationCentibips reserveA reserveB disbursed feeBips with
  | none => (0, false)
  | some (rounded, rem) =>
    if rem = 0 then (0, true)
    else
      let unrounded := uadd (usub rounded centibips) rem
      let S1 := usub centibips rem     -- S = 1 - rem
      let S2 := umul S1 centibips      -- upscale
      let S3 := S2 / unrounded         -- S / unrounded
      let S4 := S3 / bips              -- downscale to bips
      (toI64 S4, decide (S4 < 2 ^ 64 ∧ 0 ≤ toI64 S4))

/-- Errors returned by makeTrade (pools.go lines 25-30). -/
inductive TradeError where
  | poolOverflows  -- errPoolOverflows
  | badPoolType    -- errBadPoolType
  | badTradeType   -- errBadTradeType
  | badAmount      -- errBadAmount
  deriving DecidableEq

/-- Modelled from the spec: the constant-product body of a liquidity pool as
consumed by the trade dispatcher (the record type itself is defined outside
this core, in the order-book graph and XDR layers).  Per the spec it carries
the two reserve balances (Int64 each) and the fee rate in basis points. -/
structure ConstantProduct where
  reserveA : Int
  reserveB : Int
  fee : Int

/-- Modelled from the spec: the pool view passed to the dispatcher.  The body
either is a constant-product pool (some details) or has an unsupported
topology (none); assetA and assetB record the pool's stored asset ordering. -/
structure liquidityPool where
  constantProduct : Option ConstantProduct
  assetA : Int
  assetB : Int

/-- Trade-direction constant (pools.go lines 20-23). -/
def tradeTypeDeposit : Int := 0

/-- Trade-direction constant (pools.go lines 20-23). -/
def tradeTypeExpectation : Int := 1

/-- Translation of makeTrade (pools.go lines 45-85). -/
def makeTrade (pool : liquidityPool) (asset tradeType amount : Int) :
    Except TradeError Int :=
  match pool.constantProduct with
  | none => .error .badPoolType
  | some details =>
    if amount ≤ 0 then .error .badAmount
    else
      -- determine which asset the amount corresponds to
      let X := if pool.assetA ≠ asset then details.reserveB else details.reserveA
      let Y := if pool.assetA ≠ asset then details.reserveA else details.reserveB
      if tradeType = tradeTypeDeposit then
        let r := CalculatePoolPayout X Y amount details.fee false
        if r.2.2 then .ok r.1 else .error .poolOverflows
      else if tradeType = tradeTypeExpectation then
        let r := calculatePoolExpectation X Y amount details.fee
        if r.2 then .ok r.1 else .error .poolOverflows
      else .error .badTradeType

/-! Basic facts about the embedded machine arithmetic. -/

theorem toU64_lt (i : Int) : toU64 i < 2 ^ 64 := by
  simp only [toU64]; omega

theorem toU64_eq {i : Int} (h0 : 0 ≤ i) (h1 : i < 2 ^ 64) : toU64 i = i.toNat := by
  simp only [toU64]; omega

theorem toI64_eq {u : Nat} (h : u < 2 ^ 63) : toI64 u = (u : Int) := by
  simp only [toI64]
  have h1 : u % 2 ^ 64 = u := Nat.mod_eq_of_lt (by omega)
  rw [h1, if_pos h]

theorem wrapI64_eq {z : Int} (h0 : -(2 ^ 63) ≤ z) (h1 : z < 2 ^ 63) :
    wrapI64 z = z := by
  simp only [wrapI64]; omega

theorem mul_lt_128 {a b : Nat} (ha : a < 2 ^ 64) (hb : b < 2 ^ 64) :
    a * b < 2 ^ 128 := by
  calc a * b ≤ (2 ^ 64 - 1) * (2 ^ 64 - 1) :=
        Nat.mul_le_mul (by omega) (by omega)
    _ < 2 ^ 128 := by norm_num

theorem mul_lt_192 {a b : Nat} (ha : a < 2 ^ 128) (hb : b < 2 ^ 64) :
    a * b < 2 ^ 192 := by
  calc a * b ≤ (2 ^ 128 - 1) * (2 ^ 64 - 1) :=
        Nat.mul_le_mul (by omega) (by omega)
    _ < 2 ^ 192 := by norm_num

theorem umul_small {a b : Nat} (ha : a < 2 ^ 192) (hb : b < 2 ^ 64) :
    umul a b = a * b := by
  have h : a * b < u256 := by
    calc a * b ≤ (2 ^ 192 - 1) * (2 ^ 64 - 1) :=
          Nat.mul_le_mul (by omega) (by omega)
      _ < u256 := by norm_num [u256]
  simp only [umul, Nat.mod_eq_of_lt h]

theorem uadd_small {a b : Nat} (ha : a < 2 ^ 192) (hb : b < 2 ^ 192) :
    uadd a b = a + b := by
  simp only [uadd, u256]; omega

theorem usub_small {a b : Nat} (hb : b ≤ a) (ha : a < u256) : usub a b = a - b := by
  simp only [usub, u256] at *; omega

theorem usub_centibips {F : Nat} (hF : F ≤ 10000) : usub centibips F = 10000 - F := by
  simp only [usub, centibips, u256]; omega

theorem umul_centibips {a : Nat} (ha : a < 2 ^ 192) : umul a centibips = a * 10000 := by
  rw [show centibips = 10000 from rfl] at *
  exact umul_small ha (by norm_num)

/-- Cross-multiplied monotonicity of Nat floor division. -/
theorem div_le_div_cross {a b c d : Nat} (h : a * d ≤ c * b)
    (hb : 0 < b) (hd : 0 < d) : a / b ≤ c / d := by
  rw [Nat.le_div_iff_mul_le hd]
  have h1 : a / b * b ≤ a := Nat.div_mul_le_self a b
  have h2 : a / b * d * b ≤ c * b := by
    calc a / b * d * b = a / b * b * d := by ring
      _ ≤ a * d := Nat.mul_le_mul_right d h1
      _ ≤ c * b := h
  exact Nat.le_of_mul_le_mul_right h2 hb

/-- The overflow guard of CalculatePoolPayout. -/
theorem payout_overflow {rA rB rcv F : Int} {b : Bool}
    (h : rcv > wrapI64 (maxInt64 - rA)) :
    CalculatePoolPayout rA rB rcv F b = (0, 0, false) := by
  simp only [CalculatePoolPayout]
  rw [if_pos h]

/-- A successful payout implies the documented additive no-overflow bound. -/
theorem payout_ok_no_overflow {rA rB rcv F : Int} {b : Bool}
    (hA0 : 0 ≤ rA) (hA1 : rA ≤ maxInt64)
    (hok : (CalculatePoolPayout rA rB rcv F b).2.2 = true) :
    rcv ≤ maxInt64 - rA := by
  by_contra h
  push_neg at h
  have hw : wrapI64 (maxInt64 - rA) = maxInt64 - rA := by
    apply wrapI64_eq <;> simp only [maxInt64] at * <;> omega
  have hcond : rcv > wrapI64 (maxInt64 - rA) := by rw [hw]; exact h
  have heq : CalculatePoolPayout rA rB rcv F b = (0, 0, false) :=
    payout_overflow hcond
  rw [heq] at hok
  simp at hok

/-- Reduction of CalculatePoolPayout to plain natural-number arithmetic on the
int64 domain: the returned amount is the floor quotient, and when the
slippage branch is not taken the whole result is (amount, 0, true). -/
theorem payout_reduce (rA rB rcv F : Int) (b : Bool) (num den : Nat)
    (hA0 : 0 ≤ rA) (hA1 : rA ≤ maxInt64)
    (hB0 : 0 ≤ rB) (hB1 : rB ≤ maxInt64)
    (hx0 : 0 ≤ rcv) (hov : rcv ≤ maxInt64 - rA)
    (hF0 : 0 ≤ F) (hF1 : F ≤ 10000)
    (hnum : num = rB.toNat * rcv.toNat * (10000 - F.toNat))
    (hden : den = rA.toNat * 10000 + rcv.toNat * (10000 - F.toNat))
    (hd : den ≠ 0) :
    (CalculatePoolPayout rA rB rcv F b).1 = ((num / den : Nat) : Int) ∧
    ((b = false ∨ num % den = 0) →
      CalculatePoolPayout rA rB rcv F b = (((num / den : Nat) : Int), 0, true)) := by
  have hmax : maxInt64 = 2 ^ 63 - 1 := rfl
  have hguard : ¬ rcv > wrapI64 (maxInt64 - rA) := by
    rw [wrapI64_eq (by omega) (by omega)]; omega
  have eX : toU64 rA = rA.toNat := toU64_eq hA0 (by omega)
  have eY : toU64 rB = rB.toNat := toU64_eq hB0 (by omega)
  have ex : toU64 rcv = rcv.toNat := toU64_eq hx0 (by omega)
  have eF : toU64 F = F.toNat := toU64_eq hF0 (by omega)
  have hFn : F.toNat ≤ 10000 := by omega
  have hXn : rA.toNat < 2 ^ 64 := by omega
  have hYn : rB.toNat < 2 ^ 64 := by omega
  have hxn : rcv.toNat < 2 ^ 64 := by omega
  have hfn : 10000 - F.toNat < 2 ^ 64 := by omega
  have ef : usub centibips (toU64 F) = 10000 - F.toNat := by
    rw [eF]; exact usub_centibips hFn
  have eXc : umul (toU64 rA) centibips = rA.toNat * 10000 := by
    rw [eX]; exact umul_centibips (by omega)
  have exf : umul (toU64 rcv) (usub centibips (toU64 F)) =
      rcv.toNat * (10000 - F.toNat) := by
    rw [ex, ef]; exact umul_small (by omega) hfn
  have edenom : uadd (umul (toU64 rA) centibips)
      (umul (toU64 rcv) (usub centibips (toU64 F))) = den := by
    rw [eXc, exf, hden]
    exact uadd_small (lt_trans (mul_lt_128 hXn (by norm_num)) (by norm_num))
      (lt_trans (mul_lt_128 hxn hfn) (by norm_num))
  have enum : umul (umul (toU64 rB) (toU64 rcv)) (usub centibips (toU64 F)) = num := by
    rw [eY, ex, ef, umul_small (lt_trans hYn (by norm_num)) hxn,
      umul_small (lt_trans (mul_lt_128 hYn hxn) (by norm_num)) hfn, hnum]
  -- the result fits in a signed 64-bit value
  have hR63 : num / den < 2 ^ 63 := by
    have hYb : rB.toNat ≤ 2 ^ 63 - 1 := by omega
    rcases Nat.eq_zero_or_pos (rcv.toNat * (10000 - F.toNat)) with h0 | h0
    · have hz : num = 0 := by rw [hnum, mul_assoc, h0, mul_zero]
      simp [hz]
    · have hle : num / den ≤ rB.toNat := by
        have hcross : num * (rcv.toNat * (10000 - F.toNat)) ≤
            rB.toNat * (rcv.toNat * (10000 - F.toNat)) * den := by
          have hstep : rcv.toNat * (10000 - F.toNat) ≤ den := by omega
          calc num * (rcv.toNat * (10000 - F.toNat))
              = rB.toNat * (rcv.toNat * (10000 - F.toNat)) *
                  (rcv.toNat * (10000 - F.toNat)) := by rw [hnum]; ring
            _ ≤ rB.toNat * (rcv.toNat * (10000 - F.toNat)) * den :=
                Nat.mul_le_mul_left _ hstep
        have h1 := div_le_div_cross hcross (by omega) h0
        rwa [Nat.mul_div_cancel _ h0] at h1
      omega
  have eval : toI64 (num / den) = ((num / den : Nat) : Int) := toI64_eq hR63
  constructor
  · simp only [CalculatePoolPayout]
    rw [if_neg hguard]
    simp only [edenom, enum]
    rw [if_neg hd]
    simp only [eval]
  · intro hskip
    simp only [CalculatePoolPayout]
    rw [if_neg hguard]
    simp only [edenom, enum]
    rw [if_neg hd]
    have hcond : ¬ (b = true ∧ num % den ≠ 0) := by
      rcases hskip with h | h
      · rintro ⟨hb, -⟩; rw [h] at hb; exact Bool.false_ne_true hb
      · rintro ⟨-, hm⟩; exact hm h
    rw [if_neg hcond]
    simp only [eval]
    have hfit : decide (num / den < 2 ^ 64 ∧ 0 ≤ ((num / den : Nat) : Int)) = true := by
      simp only [decide_eq_true_eq]
      exact ⟨by omega, Int.natCast_nonneg _⟩
    rw [hfit]
    rfl

/-- A value that narrows to a non-negative int64 is below 2^63. -/
theorem toI64_nonneg_lt {u : Nat} (hu : u < 2 ^ 64) (h : 0 ≤ toI64 u) :
    u < 2 ^ 63 := by
  simp only [toI64] at h
  rw [Nat.mod_eq_of_lt hu] at h
  by_cases h63 : u < 2 ^ 63
  · exact h63
  · rw [if_neg h63] at h; omega

/-- The hacky ceiling adjustment followed by downscaling is the ceiling
division of the upscaled quotient by 10000. -/
theorem ceil_adjust_div (Q : Nat) :
    (if Q % 10000 = 0 then Q else Q + 10000 - Q % 10000) / 10000 =
      (Q + 9999) / 10000 := by
  by_cases h : Q % 10000 = 0
  · rw [if_pos h]; omega
  · rw [if_neg h]; omega

/-- Reduction of poolExpectationCentibips to plain natural-number arithmetic
on the int64 domain with 0 ≤ fee < 10000 and 0 ≤ disbursed < reserveB. -/
theorem expectation_reduce (rA rB y F : Int) (Q : Nat)
    (hA0 : 0 ≤ rA) (hA1 : rA ≤ maxInt64)
    (hy0 : 0 ≤ y) (hyB : y < rB) (hB1 : rB ≤ maxInt64)
    (hF0 : 0 ≤ F) (hF1 : F < 10000)
    (hQ : Q = rA.toNat * y.toNat * 100000000 /
      ((rB.toNat - y.toNat) * (10000 - F.toNat))) :
    poolExpectationCentibips rA rB y F =
      some (if Q % 10000 = 0 then Q else Q + 10000 - Q % 10000, Q % 10000) := by
  have hmax : maxInt64 = 2 ^ 63 - 1 := rfl
  have hguard : ¬ y ≥ rB := by omega
  have eX : toU64 rA = rA.toNat := toU64_eq hA0 (by omega)
  have eY : toU64 rB = rB.toNat := toU64_eq (by omega) (by omega)
  have ey : toU64 y = y.toNat := toU64_eq hy0 (by omega)
  have eF : toU64 F = F.toNat := toU64_eq hF0 (by omega)
  have hFn : F.toNat ≤ 10000 := by omega
  have hyn : y.toNat ≤ rB.toNat := by omega
  have hXn : rA.toNat < 2 ^ 64 := by omega
  have hBn : rB.toNat < 2 ^ 64 := by omega
  have hfn : 10000 - F.toNat < 2 ^ 64 := by omega
  have ef : usub centibips (toU64 F) = 10000 - F.toNat := by
    rw [eF]; exact usub_centibips hFn
  have eYy : usub (toU64 rB) (toU64 y) = rB.toNat - y.toNat := by
    rw [eY, ey]; exact usub_small hyn (by simp only [u256]; omega)
  have edenom : umul (usub (toU64 rB) (toU64 y)) (usub centibips (toU64 F)) =
      (rB.toNat - y.toNat) * (10000 - F.toNat) := by
    rw [eYy, ef]; exact umul_small (by omega) hfn
  have hd : (rB.toNat - y.toNat) * (10000 - F.toNat) ≠ 0 := by
    have h1 : 1 ≤ rB.toNat - y.toNat := by omega
    have h2 : 1 ≤ 10000 - F.toNat := by omega
    have := Nat.mul_le_mul h1 h2
    omega
  have enumer : umul (umul (toU64 rA) (toU64 y)) centibips =
      rA.toNat * y.toNat * 10000 := by
    rw [eX, ey,
      umul_small (a := rA.toNat) (b := y.toNat) (by omega) (by omega)]
    exact umul_centibips (lt_trans (mul_lt_128 hXn (by omega)) (by norm_num))
  have eres : umul (rA.toNat * y.toNat * 10000) centibips =
      rA.toNat * y.toNat * 100000000 := by
    rw [umul_centibips]
    · ring
    · calc rA.toNat * y.toNat * 10000 ≤ (2 ^ 128 - 1) * 10000 :=
            Nat.mul_le_mul_right _ (by have := mul_lt_128 hXn (by omega : y.toNat < 2 ^ 64); omega)
        _ < 2 ^ 192 := by norm_num
  simp only [poolExpectationCentibips]
  rw [if_neg hguard]
  simp only [edenom]
  rw [if_neg hd]
  simp only [enumer, eres, ← hQ]
  have hQlt : Q < 2 ^ 192 := by
    have h1 : Q ≤ rA.toNat * y.toNat * 100000000 := by rw [hQ]; exact Nat.div_le_self _ _
    have h2 : rA.toNat * y.toNat * 100000000 ≤ (2 ^ 128 - 1) * 100000000 :=
      Nat.mul_le_mul_right _ (by have := mul_lt_128 hXn (by omega : y.toNat < 2 ^ 64); omega)
    have h3 : (2 ^ 128 - 1) * 100000000 < 2 ^ 192 := by norm_num
    omega
  by_cases hrem : Q % 10000 = 0
  · have hc : Q % centibips = 0 := hrem
    rw [if_neg (not_not_intro hc), if_pos hrem]
    rfl
  · have hc : Q % centibips ≠ 0 := hrem
    rw [if_pos hc, if_neg hrem]
    have e1 : uadd Q centibips = Q + 10000 :=
      uadd_small hQlt (by norm_num [centibips])
    have e2 : usub (Q + 10000) (Q % centibips) = Q + 10000 - Q % 10000 :=
      usub_small (le_trans (Nat.mod_le Q centibips) (Nat.le_add_right Q 10000))
        (by simp only [u256]; omega)
    rw [e1, e2]
    rfl

/-- Reduction of calculatePoolExpectation: the deposit is the 10000-ceiling
division of the truncated upscaled quotient Q, narrowed to int64. -/
theorem expectation_val (rA rB y F : Int) (Q : Nat)
    (hA0 : 0 ≤ rA) (hA1 : rA ≤ maxInt64)
    (hy0 : 0 ≤ y) (hyB : y < rB) (hB1 : rB ≤ maxInt64)
    (hF0 : 0 ≤ F) (hF1 : F < 10000)
    (hQ : Q = rA.toNat * y.toNat * 100000000 /
      ((rB.toNat - y.toNat) * (10000 - F.toNat))) :
    calculatePoolExpectation rA rB y F =
      (toI64 ((Q + 9999) / 10000),
       decide ((Q + 9999) / 10000 < 2 ^ 64 ∧ 0 ≤ toI64 ((Q + 9999) / 10000))) := by
  simp only [calculatePoolExpectation,
    expectation_reduce rA rB y F Q hA0 hA1 hy0 hyB hB1 hF0 hF1 hQ]
  have e1 : (if Q % 10000 = 0 then Q else Q + 10000 - Q % 10000) / centibips =
      (Q + 9999) / 10000 := ceil_adjust_div Q
  rw [e1]

/-- On a successful expectation call the returned deposit is exactly the
10000-ceiling division of the truncated upscaled quotient. -/
theorem expectation_ok_val (rA rB y F : Int) (Q : Nat)
    (hA0 : 0 ≤ rA) (hA1 : rA ≤ maxInt64)
    (hy0 : 0 ≤ y) (hyB : y < rB) (hB1 : rB ≤ maxInt64)
    (hF0 : 0 ≤ F) (hF1 : F < 10000)
    (hQ : Q = rA.toNat * y.toNat * 100000000 /
      ((rB.toNat - y.toNat) * (10000 - F.toNat)))
    (hok : (calculatePoolExpectation rA rB y F).2 = true) :
    (calculatePoolExpectation rA rB y F).1 = (((Q + 9999) / 10000 : Nat) : Int) ∧
    (Q + 9999) / 10000 < 2 ^ 63 := by
  have hv := expectation_val rA rB y F Q hA0 hA1 hy0 hyB hB1 hF0 hF1 hQ
  rw [hv] at hok ⊢
  simp only [decide_eq_true_eq] at hok
  have h63 : (Q + 9999) / 10000 < 2 ^ 63 := toI64_nonneg_lt hok.1 hok.2
  exact ⟨toI64_eq h63, h63⟩

/-- With a 100% fee the expectation calculator's denominator is zero, so the
shared helper reports failure for every input. -/
theorem poolExpectationCentibips_full_fee (rA rB y : Int) :
    poolExpectationCentibips rA rB y 10000 = none := by
  simp only [poolExpectationCentibips]
  by_cases hg : y ≥ rB
  · rw [if_pos hg]
  · rw [if_neg hg]
    have e0 : toU64 (10000 : Int) = 10000 := by decide
    have ef : usub centibips (toU64 (10000 : Int)) = 0 := by
      rw [e0]; exact usub_centibips le_rfl
    rw [ef]
    have hz : umul (usub (toU64 rB) (toU64 y)) 0 = 0 := by simp [umul]
    rw [hz, if_pos rfl]

/-- C7: CalculatePoolPayout fails whenever amountIn exceeds MaxInt64 -
reserveIn (the 64-bit sum would overflow), and in particular a deposit trade
of MaxInt64 against a pool with reserveIn = 1 is rejected by the dispatcher
with the coarse pool-overflow error rather than wrapping. -/
theorem payout_additive_overflow :
    (∀ (rA rB rcv F : Int) (b : Bool), 0 ≤ rA → rA ≤ maxInt64 →
      rcv > maxInt64 - rA → (CalculatePoolPayout rA rB rcv F b).2.2 = false) ∧
    makeTrade ⟨some ⟨1, 100, 30⟩, 0, 1⟩ 0 tradeTypeDeposit maxInt64 =
      .error .poolOverflows := by
  constructor
  · intro rA rB rcv F b h0 h1 h2
    have hw : wrapI64 (maxInt64 - rA) = maxInt64 - rA :=
      wrapI64_eq (by simp only [maxInt64] at *; omega)
        (by simp only [maxInt64] at *; omega)
    rw [payout_overflow (by rw [hw]; exact h2)]
  · rfl

/-- C7 witness: a concrete overflowing deposit is reported as not ok. -/
theorem payout_additive_overflow_witness :
    (CalculatePoolPayout 5 100 maxInt64 30 false).2.2 = false :=
  payout_additive_overflow.1 5 100 maxInt64 30 false (by norm_num)
    (by simp only [maxInt64]; norm_num) (by simp only [maxInt64]; norm_num)

/-- C10: with feeBips = 10000 (a 100% fee) the payout calculator reports
success with amountOut = 0 (the whole deposit is consumed by the fee), while
the expectation calculator always fails because its denominator is zero. -/
theorem full_fee_payout_ok_expectation_fails :
    (∀ (rA rB rcv : Int) (b : Bool), 0 < rA → rA ≤ maxInt64 →
      0 ≤ rB → rB ≤ maxInt64 → 0 < rcv → rcv ≤ maxInt64 - rA →
      CalculatePoolPayout rA rB rcv 10000 b = (0, 0, true)) ∧
    (∀ rA rB y : Int, (calculatePoolExpectation rA rB y 10000).2 = false) := by
  constructor
  · intro rA rB rcv b hA0 hA1 hB0 hB1 hx hov
    have hF : ((10000 : Int)).toNat = 10000 := by decide
    have h := payout_reduce rA rB rcv 10000 b 0 (rA.toNat * 10000)
      (le_of_lt hA0) hA1 hB0 hB1 (le_of_lt hx) hov (by norm_num) (by norm_num)
      (by rw [hF]; simp) (by rw [hF]; simp) (by omega)
    have h2 := h.2 (Or.inr (Nat.zero_mod _))
    simpa using h2
  · intro rA rB y
    simp only [calculatePoolExpectation, poolExpectationCentibips_full_fee]

/-- C10 witness: a concrete 100%-fee payout succeeds with zero output while
the matching expectation call fails. -/
theorem full_fee_witness :
    CalculatePoolPayout 5 100 7 10000 true = (0, 0, true) ∧
    (calculatePoolExpectation 5 100 7 10000).2 = false :=
  ⟨full_fee_payout_ok_expectation_fails.1 5 100 7 true (by norm_num)
      (by simp only [maxInt64]; norm_num) (by norm_num)
      (by simp only [maxInt64]; norm_num) (by norm_num)
      (by simp only [maxInt64]; norm_num),
   full_fee_payout_ok_expectation_fails.2 5 100 7⟩

/-- C3 counterexample: requesting the entire output reserve fails with the
coarse pool-overflow error, which is not the bad-amount error the claim
names. -/
theorem fullReserve_expectation_error_kind :
    makeTrade ⟨some ⟨200, 300, 30⟩, 0, 1⟩ 0 tradeTypeExpectation 300 =
      .error .poolOverflows ∧
    TradeError.poolOverflows ≠ TradeError.badAmount :=
  ⟨rfl, fun h => TradeError.noConfusion h⟩

/-- C3 (amended): an expectation trade requesting desiredOut equal to the
output reserve fails with the coarse pool-overflow (ExchangeOverflow) error
produced by the dispatcher, never returning a finite deposit; the specific
bad-amount error is reserved for non-positive amounts. -/
theorem fullReserve_expectation_overflow_error (pool : liquidityPool)
    (details : ConstantProduct) (asset amount : Int)
    (hdet : pool.constantProduct = some details)
    (hasset : pool.assetA = asset)
    (hamt : amount = details.reserveB) (hpos : 0 < amount) :
    makeTrade pool asset tradeTypeExpectation amount = .error .poolOverflows := by
  simp only [makeTrade, hdet]
  rw [if_neg (by omega : ¬ amount ≤ 0)]
  have hne : ¬ pool.assetA ≠ asset := fun h => h hasset
  rw [if_neg hne, if_neg hne]
  rw [if_neg (by simp [tradeTypeDeposit, tradeTypeExpectation] :
    ¬ tradeTypeExpectation = tradeTypeDeposit)]
  have hfail : poolExpectationCentibips details.reserveA details.reserveB
      amount details.fee = none := by
    simp only [poolExpectationCentibips]
    rw [if_pos (by omega : amount ≥ details.reserveB)]
  simp [calculatePoolExpectation, hfail]

/-- C3 witness: the amended statement at a concrete pool. -/
theorem fullReserve_expectation_overflow_error_witness :
    makeTrade ⟨some ⟨200, 300, 30⟩, 4, 9⟩ 4 tradeTypeExpectation 300 =
      .error .poolOverflows :=
  fullReserve_expectation_overflow_error ⟨some ⟨200, 300, 30⟩, 4, 9⟩
    ⟨200, 300, 30⟩ 4 300 rfl rfl rfl (by norm_num)

/-- C4: at the documented worked example (reserveIn 200, reserveOut 300,
desiredOut 3, feeBips 30) the expectation calculator returns deposit 3 as
documented, but the rounding-slippage calculator returns 48, not the 4778
basis points stated in its own doc comment (the final division by bips
rescales the value once too often). -/
theorem worked_example_eval :
    calculatePoolExpectation 200 300 3 30 = (3, true) ∧
    CalculatePoolExpectationRoundingSlippage 200 300 3 30 = (48, true) ∧
    (48 : Int) ≠ 4778 := by
  refine ⟨by decide, by decide, by decide⟩

/-- C2 counterexample: at reserveIn = 10002, reserveOut = 10002,
desiredOut = 1, feeBips = 0 the exact required deposit is 10002/10001, whose
ceiling is 2, yet the code returns deposit 1 with ok = true: the sub-centibip
remainder is lost by the intermediate truncation. -/
theorem expectation_not_exact_ceiling :
    calculatePoolExpectation 10002 10002 1 0 = (1, true) ∧
    ⌈((10002 : ℚ) * 1) / (((10002 : ℚ) - 1) * (1 - (0 : ℚ) / 10000))⌉ = 2 ∧
    (1 : Int) ≠ 2 := by
  refine ⟨by decide, ?_, by decide⟩
  norm_num
  rw [Int.ceil_eq_iff]
  constructor <;> norm_num

/-- C2 (amended): on every successful call the returned deposit equals the
10000-ceiling division of the truncated upscaled quotient
Q = floor(reserveIn·desiredOut·10^8 / ((reserveOut−desiredOut)·(10000−fee))),
i.e. the ceiling applied at centibip precision to the already-truncated
quotient, not the ceiling of the exact rational. -/
theorem expectation_centibips_truncated_ceiling (rA rB y F : Int)
    (hA0 : 0 ≤ rA) (hA1 : rA ≤ maxInt64)
    (hy : 0 < y) (hyB : y < rB) (hB1 : rB ≤ maxInt64)
    (hF0 : 0 ≤ F) (hF1 : F < 10000)
    (hok : (calculatePoolExpectation rA rB y F).2 = true) :
    (calculatePoolExpectation rA rB y F).1 =
      (((rA.toNat * y.toNat * 100000000 /
          ((rB.toNat - y.toNat) * (10000 - F.toNat)) + 9999) / 10000 : Nat) : Int) :=
  (expectation_ok_val rA rB y F _ hA0 hA1 (le_of_lt hy) hyB hB1 hF0 hF1 rfl hok).1

/-- C2 witness: the amended formula at the documented worked example. -/
theorem expectation_centibips_truncated_ceiling_witness :
    (calculatePoolExpectation 200 300 3 30).1 = 3 := by
  have h := expectation_centibips_truncated_ceiling 200 300 3 30
    (by norm_num) (by simp only [maxInt64]; norm_num) (by norm_num)
    (by norm_num) (by simp only [maxInt64]; norm_num) (by norm_num)
    (by norm_num) (by decide)
  rw [h]
  decide

/-- C1: on the documented domain (non-negative int64 reserves,
0 ≤ feeBips < 10000, positive amountIn), every successful CalculatePoolPayout
call returns the floor of the exact rational
(1-f)·reserveOut·amountIn / (reserveIn + (1-f)·amountIn), f = feeBips/10000. -/
theorem payout_matches_cap38_formula (rA rB rcv F : Int) (b : Bool)
    (hA0 : 0 ≤ rA) (hA1 : rA ≤ maxInt64)
    (hB0 : 0 ≤ rB) (hB1 : rB ≤ maxInt64)
    (hx : 0 < rcv) (hxm : rcv ≤ maxInt64)
    (hF0 : 0 ≤ F) (hF1 : F < 10000)
    (hok : (CalculatePoolPayout rA rB rcv F b).2.2 = true) :
    (CalculatePoolPayout rA rB rcv F b).1 =
      ⌊((1 - (F : ℚ) / 10000) * (rB : ℚ) * (rcv : ℚ)) /
        ((rA : ℚ) + (1 - (F : ℚ) / 10000) * (rcv : ℚ))⌋ := by
  have hov := payout_ok_no_overflow hA0 hA1 hok
  have hmax : maxInt64 = 2 ^ 63 - 1 := rfl
  have hd : rA.toNat * 10000 + rcv.toNat * (10000 - F.toNat) ≠ 0 := by
    have h1 : 1 ≤ rcv.toNat := by omega
    have h2 : 1 ≤ 10000 - F.toNat := by omega
    have := Nat.mul_le_mul h1 h2
    omega
  rw [(payout_reduce rA rB rcv F b _ _ hA0 hA1 hB0 hB1 (le_of_lt hx) hov hF0
    (le_of_lt hF1) rfl rfl hd).1]
  -- move the claimed rational into a quotient of natural-number casts
  have hAQ : ((rA.toNat : ℕ) : ℚ) = (rA : ℚ) := by
    exact_mod_cast congrArg (fun z : Int => (z : ℚ)) (Int.toNat_of_nonneg hA0)
  have hBQ : ((rB.toNat : ℕ) : ℚ) = (rB : ℚ) := by
    exact_mod_cast congrArg (fun z : Int => (z : ℚ)) (Int.toNat_of_nonneg hB0)
  have hxQ : ((rcv.toNat : ℕ) : ℚ) = (rcv : ℚ) := by
    exact_mod_cast congrArg (fun z : Int => (z : ℚ))
      (Int.toNat_of_nonneg (le_of_lt hx))
  have hFQ : ((F.toNat : ℕ) : ℚ) = (F : ℚ) := by
    exact_mod_cast congrArg (fun z : Int => (z : ℚ)) (Int.toNat_of_nonneg hF0)
  have hfQ : (((10000 - F.toNat : ℕ)) : ℚ) = 10000 - (F : ℚ) := by
    rw [Nat.cast_sub (by omega : F.toNat ≤ 10000), hFQ]
    norm_num
  have hdQ : ((rA.toNat * 10000 + rcv.toNat * (10000 - F.toNat) : ℕ) : ℚ) ≠ 0 := by
    exact_mod_cast hd
  have hden1 : ((rA : ℚ) + (1 - (F : ℚ) / 10000) * (rcv : ℚ)) =
      ((rA.toNat * 10000 + rcv.toNat * (10000 - F.toNat) : ℕ) : ℚ) / 10000 := by
    push_cast [hfQ]
    rw [← hAQ, ← hxQ]
    field_simp
    ring
  have hnum1 : ((1 - (F : ℚ) / 10000) * (rB : ℚ) * (rcv : ℚ)) =
      ((rB.toNat * rcv.toNat * (10000 - F.toNat) : ℕ) : ℚ) / 10000 := by
    push_cast [hfQ]
    rw [← hBQ, ← hxQ]
    field_simp
    ring
  rw [hnum1, hden1, div_div_eq_mul_div,
    div_mul_cancel₀ _ (by norm_num : (10000 : ℚ) ≠ 0)]
  rw [Rat.floor_natCast_div_natCast]
  exact_mod_cast rfl

/-- C1 witness: the rational floor formula at a concrete successful call. -/
theorem payout_matches_cap38_formula_witness :
    (CalculatePoolPayout 1000 1000 100 30 false).1 =
      ⌊((1 - (30 : ℚ) / 10000) * (1000 : ℚ) * (100 : ℚ)) /
        ((1000 : ℚ) + (1 - (30 : ℚ) / 10000) * (100 : ℚ))⌋ :=
  payout_matches_cap38_formula 1000 1000 100 30 false (by norm_num)
    (by simp only [maxInt64]; norm_num) (by norm_num)
    (by simp only [maxInt64]; norm_num) (by norm_num)
    (by simp only [maxInt64]; norm_num) (by norm_num) (by norm_num) (by decide)

/-- A successful expectation call implies desiredOut is strictly below the
output reserve (the guard in the shared helper). -/
theorem expectation_ok_lt {rA rB y F : Int}
    (hok : (calculatePoolExpectation rA rB y F).2 = true) : y < rB := by
  by_contra h
  push_neg at h
  have hnone : poolExpectationCentibips rA rB y F = none := by
    simp only [poolExpectationCentibips]
    rw [if_pos (by omega : y ≥ rB)]
  rw [show (calculatePoolExpectation rA rB y F) = (0, false) by
    simp [calculatePoolExpectation, hnone]] at hok
  simp at hok

/-- C8: with a zero fee, each successful payout satisfies the constant-product
invariant up to the truncation of a single floor:
reserveIn·reserveOut ≤ (reserveIn+amountIn)·(reserveOut−amountOut)
< reserveIn·reserveOut + (reserveIn+amountIn). -/
theorem feeFree_constant_product_invariant (rA rB rcv : Int) (b : Bool)
    (hA0 : 0 ≤ rA) (hA1 : rA ≤ maxInt64)
    (hB0 : 0 ≤ rB) (hB1 : rB ≤ maxInt64)
    (hx : 0 < rcv) (hxm : rcv ≤ maxInt64)
    (hok : (CalculatePoolPayout rA rB rcv 0 b).2.2 = true) :
    rA * rB ≤ (rA + rcv) * (rB - (CalculatePoolPayout rA rB rcv 0 b).1) ∧
    (rA + rcv) * (rB - (CalculatePoolPayout rA rB rcv 0 b).1) <
      rA * rB + (rA + rcv) := by
  have hov := payout_ok_no_overflow hA0 hA1 hok
  have hmax : maxInt64 = 2 ^ 63 - 1 := rfl
  have hx0 : (0 : Int) ≤ rcv := le_of_lt hx
  have hd : (rA.toNat + rcv.toNat) * 10000 ≠ 0 := by
    have : 1 ≤ rcv.toNat := by omega
    have h2 : 1 * 10000 ≤ (rA.toNat + rcv.toNat) * 10000 :=
      Nat.mul_le_mul_right _ (by omega)
    omega
  have hval := (payout_reduce rA rB rcv 0 b
      (rB.toNat * rcv.toNat * 10000) ((rA.toNat + rcv.toNat) * 10000)
      hA0 hA1 hB0 hB1 hx0 hov (by norm_num) (by norm_num)
      (by norm_num) (by simp; ring) hd).1
  have hcancel : rB.toNat * rcv.toNat * 10000 / ((rA.toNat + rcv.toNat) * 10000) =
      rB.toNat * rcv.toNat / (rA.toNat + rcv.toNat) :=
    Nat.mul_div_mul_right _ _ (by norm_num)
  rw [hcancel] at hval
  set q : Nat := rB.toNat * rcv.toNat / (rA.toNat + rcv.toNat) with hq
  set r : Nat := rB.toNat * rcv.toNat % (rA.toNat + rcv.toNat) with hr
  -- division with remainder for the fee-free quotient
  have hmod : (rA.toNat + rcv.toNat) * q + r = rB.toNat * rcv.toNat := by
    rw [hq, hr]; exact Nat.div_add_mod _ _
  have hrlt : r < rA.toNat + rcv.toNat := by
    rw [hr]; exact Nat.mod_lt _ (by omega)
  have hAZ : (rA.toNat : Int) = rA := Int.toNat_of_nonneg hA0
  have hBZ : (rB.toNat : Int) = rB := Int.toNat_of_nonneg hB0
  have hxZ : (rcv.toNat : Int) = rcv := Int.toNat_of_nonneg hx0
  have hmodZ : (rA + rcv) * (q : Int) + (r : Int) = rB * rcv := by
    rw [← hAZ, ← hBZ, ← hxZ]
    exact_mod_cast congrArg (fun n : Nat => (n : Int)) hmod
  have main : (rA + rcv) * (rB - (q : Int)) = rA * rB + (r : Int) := by
    linear_combination -hmodZ
  have hrZ : (r : Int) < rA + rcv := by
    rw [← hAZ, ← hxZ]
    exact_mod_cast hrlt
  have hr0 : (0 : Int) ≤ (r : Int) := Int.natCast_nonneg _
  rw [hval]
  constructor
  · rw [main]; omega
  · rw [main]; omega

/-- C8 witness: the invariant at a concrete zero-fee call. -/
theorem feeFree_constant_product_invariant_witness :
    (1000 : Int) * 1000 ≤
      ((1000 : Int) + 100) * (1000 - (CalculatePoolPayout 1000 1000 100 0 false).1) ∧
    ((1000 : Int) + 100) * (1000 - (CalculatePoolPayout 1000 1000 100 0 false).1) <
      1000 * 1000 + (1000 + 100) :=
  feeFree_constant_product_invariant 1000 1000 100 false (by norm_num)
    (by simp only [maxInt64]; norm_num) (by norm_num)
    (by simp only [maxInt64]; norm_num) (by norm_num)
    (by simp only [maxInt64]; norm_num) (by decide)

/-- C9: when the wide-integer division leaves no remainder, the payout
calculator with slippage requested reports zero slippage, and when the
upscaled expectation quotient has no centibip remainder the expectation
rounding-slippage calculator returns 0 with ok = true. -/
theorem exact_division_zero_slippage :
    (∀ rA rB rcv F : Int, 0 ≤ rA → rA ≤ maxInt64 → 0 ≤ rB → rB ≤ maxInt64 →
      0 < rcv → rcv ≤ maxInt64 - rA → 0 ≤ F → F < 10000 →
      rB.toNat * rcv.toNat * (10000 - F.toNat) %
        (rA.toNat * 10000 + rcv.toNat * (10000 - F.toNat)) = 0 →
      CalculatePoolPayout rA rB rcv F true =
        (((rB.toNat * rcv.toNat * (10000 - F.toNat) /
            (rA.toNat * 10000 + rcv.toNat * (10000 - F.toNat)) : Nat) : Int),
          0, true)) ∧
    (∀ rA rB y F : Int, 0 ≤ rA → rA ≤ maxInt64 → 0 ≤ y → y < rB →
      rB ≤ maxInt64 → 0 ≤ F → F < 10000 →
      rA.toNat * y.toNat * 100000000 /
          ((rB.toNat - y.toNat) * (10000 - F.toNat)) % 10000 = 0 →
      CalculatePoolExpectationRoundingSlippage rA rB y F = (0, true)) := by
  constructor
  · intro rA rB rcv F hA0 hA1 hB0 hB1 hx hov hF0 hF1 hexact
    have hd : rA.toNat * 10000 + rcv.toNat * (10000 - F.toNat) ≠ 0 := by
      have hmax : maxInt64 = 2 ^ 63 - 1 := rfl
      have h1 : 1 ≤ rcv.toNat := by omega
      have h2 : 1 ≤ 10000 - F.toNat := by omega
      have := Nat.mul_le_mul h1 h2
      omega
    exact (payout_reduce rA rB rcv F true _ _ hA0 hA1 hB0 hB1 (le_of_lt hx) hov
      hF0 (le_of_lt hF1) rfl rfl hd).2 (Or.inr hexact)
  · intro rA rB y F hA0 hA1 hy0 hyB hB1 hF0 hF1 hrem
    simp only [CalculatePoolExpectationRoundingSlippage,
      expectation_reduce rA rB y F _ hA0 hA1 hy0 hyB hB1 hF0 hF1 rfl]
    rw [if_pos hrem]

/-- C9 witness: concrete exact-division inputs on both calculators. -/
theorem exact_division_zero_slippage_witness :
    CalculatePoolPayout 0 500 7 30 true = (500, 0, true) ∧
    CalculatePoolExpectationRoundingSlippage 1 2 1 0 = (0, true) := by
  constructor
  · have h := exact_division_zero_slippage.1 0 500 7 30 (by norm_num)
      (by simp only [maxInt64]; norm_num) (by norm_num)
      (by simp only [maxInt64]; norm_num) (by norm_num)
      (by simp only [maxInt64]; norm_num) (by norm_num) (by norm_num) (by decide)
    rw [h]
    decide
  · exact exact_division_zero_slippage.2 1 2 1 0 (by norm_num)
      (by simp only [maxInt64]; norm_num) (by norm_num) (by norm_num)
      (by simp only [maxInt64]; norm_num) (by norm_num) (by norm_num) (by decide)

/-- The payout quotient is monotone in the deposited amount. -/
theorem payout_num_mono {X Y f a1 a2 : Nat} (h12 : a1 ≤ a2)
    (hd1 : 0 < X * 10000 + a1 * f) (hd2 : 0 < X * 10000 + a2 * f) :
    Y * a1 * f / (X * 10000 + a1 * f) ≤ Y * a2 * f / (X * 10000 + a2 * f) := by
  apply div_le_div_cross _ hd1 hd2
  have e1 : Y * a1 * f * (X * 10000 + a2 * f) =
      Y * f * (X * 10000) * a1 + Y * f * f * (a1 * a2) := by ring
  have e2 : Y * a2 * f * (X * 10000 + a1 * f) =
      Y * f * (X * 10000) * a2 + Y * f * f * (a1 * a2) := by ring
  have hkey : Y * f * (X * 10000) * a1 ≤ Y * f * (X * 10000) * a2 :=
    Nat.mul_le_mul_left _ h12
  omega

/-- The upscaled expectation quotient is monotone in the disbursed amount. -/
theorem expectation_num_mono {X Y f y1 y2 : Nat} (h12 : y1 ≤ y2) (hy2 : y2 ≤ Y)
    (hd1 : 0 < (Y - y1) * f) (hd2 : 0 < (Y - y2) * f) :
    X * y1 * 100000000 / ((Y - y1) * f) ≤
      X * y2 * 100000000 / ((Y - y2) * f) := by
  apply div_le_div_cross _ hd1 hd2
  have hy1 : y1 ≤ Y := le_trans h12 hy2
  zify [hy1, hy2]
  nlinarith [mul_nonneg
    (mul_nonneg
      (mul_nonneg (Int.natCast_nonneg X) (by norm_num : (0 : Int) ≤ 100000000))
      (Int.natCast_nonneg f))
    (mul_nonneg (sub_nonneg.mpr (by exact_mod_cast h12 : (y1 : Int) ≤ y2))
      (Int.natCast_nonneg Y))]

/-- C6: with the reserves and fee fixed, the payout is non-decreasing in the
deposited amount and the expectation deposit is non-decreasing in the desired
disbursement, whenever both compared calls succeed. -/
theorem payout_and_expectation_monotone :
    (∀ (rA rB F x1 x2 : Int) (b1 b2 : Bool),
      0 ≤ rA → rA ≤ maxInt64 → 0 ≤ rB → rB ≤ maxInt64 →
      0 < x1 → x1 ≤ x2 → 0 ≤ F → F < 10000 →
      (CalculatePoolPayout rA rB x1 F b1).2.2 = true →
      (CalculatePoolPayout rA rB x2 F b2).2.2 = true →
      (CalculatePoolPayout rA rB x1 F b1).1 ≤ (CalculatePoolPayout rA rB x2 F b2).1) ∧
    (∀ rA rB F y1 y2 : Int,
      0 ≤ rA → rA ≤ maxInt64 → rB ≤ maxInt64 →
      0 < y1 → y1 ≤ y2 → 0 ≤ F → F < 10000 →
      (calculatePoolExpectation rA rB y1 F).2 = true →
      (calculatePoolExpectation rA rB y2 F).2 = true →
      (calculatePoolExpectation rA rB y1 F).1 ≤
        (calculatePoolExpectation rA rB y2 F).1) := by
  have hmax : maxInt64 = 2 ^ 63 - 1 := rfl
  constructor
  · intro rA rB F x1 x2 b1 b2 hA0 hA1 hB0 hB1 hx1 h12 hF0 hF1 hok1 hok2
    have hov1 := payout_ok_no_overflow hA0 hA1 hok1
    have hov2 := payout_ok_no_overflow hA0 hA1 hok2
    have hfpos : 1 ≤ 10000 - F.toNat := by omega
    have hd1 : rA.toNat * 10000 + x1.toNat * (10000 - F.toNat) ≠ 0 := by
      have h1 : 1 ≤ x1.toNat := by omega
      have := Nat.mul_le_mul h1 hfpos
      omega
    have hd2 : rA.toNat * 10000 + x2.toNat * (10000 - F.toNat) ≠ 0 := by
      have h1 : 1 ≤ x2.toNat := by omega
      have := Nat.mul_le_mul h1 hfpos
      omega
    rw [(payout_reduce rA rB x1 F b1 _ _ hA0 hA1 hB0 hB1 (le_of_lt hx1) hov1
        hF0 (le_of_lt hF1) rfl rfl hd1).1,
      (payout_reduce rA rB x2 F b2 _ _ hA0 hA1 hB0 hB1
        (by omega) hov2 hF0 (le_of_lt hF1) rfl rfl hd2).1]
    have h12N : x1.toNat ≤ x2.toNat := by omega
    exact_mod_cast payout_num_mono h12N (by omega) (by omega)
  · intro rA rB F y1 y2 hA0 hA1 hB1 hy1 h12 hF0 hF1 hok1 hok2
    have hyB2 := expectation_ok_lt hok2
    have hyB1 : y1 < rB := lt_of_le_of_lt h12 hyB2
    have h1 := expectation_ok_val rA rB y1 F _ hA0 hA1 (le_of_lt hy1) hyB1 hB1
      hF0 hF1 rfl hok1
    have h2 := expectation_ok_val rA rB y2 F _ hA0 hA1 (by omega) hyB2 hB1
      hF0 hF1 rfl hok2
    rw [h1.1, h2.1]
    have hyN : y1.toNat ≤ y2.toNat := by omega
    have hy2N : y2.toNat ≤ rB.toNat := by omega
    have hfpos : 1 ≤ 10000 - F.toNat := by omega
    have hd1 : 0 < (rB.toNat - y1.toNat) * (10000 - F.toNat) :=
      Nat.mul_pos (by omega) (by omega)
    have hd2 : 0 < (rB.toNat - y2.toNat) * (10000 - F.toNat) :=
      Nat.mul_pos (by omega) (by omega)
    have hQ := expectation_num_mono (X := rA.toNat) hyN hy2N hd1 hd2
    have hD : (rA.toNat * y1.toNat * 100000000 /
          ((rB.toNat - y1.toNat) * (10000 - F.toNat)) + 9999) / 10000 ≤
        (rA.toNat * y2.toNat * 100000000 /
          ((rB.toNat - y2.toNat) * (10000 - F.toNat)) + 9999) / 10000 := by
      omega
    exact_mod_cast hD

/-- C6 witness: instances of both monotonicity statements. -/
theorem payout_and_expectation_monotone_witness :
    (CalculatePoolPayout 1000 1000 100 30 false).1 ≤
      (CalculatePoolPayout 1000 1000 200 30 false).1 ∧
    (calculatePoolExpectation 200 300 3 30).1 ≤
      (calculatePoolExpectation 200 300 5 30).1 :=
  ⟨payout_and_expectation_monotone.1 1000 1000 30 100 200 false false
      (by norm_num) (by simp only [maxInt64]; norm_num) (by norm_num)
      (by simp only [maxInt64]; norm_num) (by norm_num) (by norm_num)
      (by norm_num) (by norm_num) (by decide) (by decide),
   payout_and_expectation_monotone.2 200 300 30 3 5
      (by norm_num) (by simp only [maxInt64]; norm_num)
      (by simp only [maxInt64]; norm_num) (by norm_num) (by norm_num)
      (by norm_num) (by norm_num) (by decide) (by decide)⟩

/-- Core round-trip bound: starting from the floor payout R of depositing x,
the ceiling-divided expectation deposit for R never exceeds x. -/
theorem roundtrip_core {X Y x f R : Nat} (hf : 0 < f)
    (hRY : R < Y)
    (hR : R = Y * x * f / (X * 10000 + x * f)) :
    (X * R * 100000000 / ((Y - R) * f) + 9999) / 10000 ≤ x := by
  have h0 : R * (X * 10000 + x * f) ≤ Y * x * f := by
    rw [hR]; exact Nat.div_mul_le_self _ _
  have e0 : R * (X * 10000 + x * f) = R * (X * 10000) + R * (x * f) := by ring
  have e1 : Y * x * f = Y * (x * f) := by ring
  rw [e0, e1] at h0
  have h2 : R * (X * 10000) ≤ (Y - R) * (x * f) := by
    rw [Nat.sub_mul]
    omega
  have h3 : X * R * 100000000 ≤ x * 10000 * ((Y - R) * f) := by
    have hm := Nat.mul_le_mul_right 10000 h2
    have eL : R * (X * 10000) * 10000 = X * R * 100000000 := by ring
    have eR : (Y - R) * (x * f) * 10000 = x * 10000 * ((Y - R) * f) := by ring
    omega
  have hpos : 0 < (Y - R) * f := Nat.mul_pos (by omega) hf
  have h4 : X * R * 100000000 / ((Y - R) * f) ≤ x * 10000 := by
    have h5 : X * R * 100000000 / ((Y - R) * f) ≤
        x * 10000 * ((Y - R) * f) / ((Y - R) * f) := Nat.div_le_div_right h3
    rwa [Nat.mul_div_cancel _ hpos] at h5
  omega

/-- C5: a successful payout of amountIn followed by a successful expectation
for the produced amountOut asks for a deposit no greater than amountIn. -/
theorem roundtrip_deposit_le_amountIn (rA rB rcv F : Int) (b : Bool)
    (hA0 : 0 ≤ rA) (hA1 : rA ≤ maxInt64)
    (hB0 : 0 ≤ rB) (hB1 : rB ≤ maxInt64)
    (hx : 0 < rcv) (hxm : rcv ≤ maxInt64)
    (hF0 : 0 ≤ F) (hF1 : F < 10000)
    (hok : (CalculatePoolPayout rA rB rcv F b).2.2 = true)
    (hpos : 0 < (CalculatePoolPayout rA rB rcv F b).1)
    (hok2 : (calculatePoolExpectation rA rB
      ((CalculatePoolPayout rA rB rcv F b).1) F).2 = true) :
    (calculatePoolExpectation rA rB
      ((CalculatePoolPayout rA rB rcv F b).1) F).1 ≤ rcv := by
  have hmax : maxInt64 = 2 ^ 63 - 1 := rfl
  have hov := payout_ok_no_overflow hA0 hA1 hok
  have hd : rA.toNat * 10000 + rcv.toNat * (10000 - F.toNat) ≠ 0 := by
    have h1 : 1 ≤ rcv.toNat := by omega
    have h2 : 1 ≤ 10000 - F.toNat := by omega
    have := Nat.mul_le_mul h1 h2
    omega
  have hval := (payout_reduce rA rB rcv F b _ _ hA0 hA1 hB0 hB1 (le_of_lt hx)
    hov hF0 (le_of_lt hF1) rfl rfl hd).1
  rw [hval] at hok2 ⊢
  have hyB := expectation_ok_lt hok2
  set R := rB.toNat * rcv.toNat * (10000 - F.toNat) /
    (rA.toNat * 10000 + rcv.toNat * (10000 - F.toNat)) with hRdef
  have hRN : ((R : Int)).toNat = R := Int.toNat_natCast R
  have hE := expectation_ok_val rA rB (R : Int) F
    (rA.toNat * R * 100000000 / ((rB.toNat - R) * (10000 - F.toNat)))
    hA0 hA1 (Int.natCast_nonneg R) hyB hB1 hF0 hF1 (by rw [hRN]) hok2
  rw [hE.1]
  have hRY : R < rB.toNat := by omega
  have hcore := roundtrip_core (X := rA.toNat) (Y := rB.toNat) (x := rcv.toNat)
    (f := 10000 - F.toNat) (R := R) (by omega) hRY hRdef
  have hfin : ((rA.toNat * R * 100000000 /
        ((rB.toNat - R) * (10000 - F.toNat)) + 9999) / 10000 : Nat) ≤
      ((rcv.toNat : Nat) : Int).toNat := by
    rw [Int.toNat_natCast]
    exact hcore
  have : (((rA.toNat * R * 100000000 /
        ((rB.toNat - R) * (10000 - F.toNat)) + 9999) / 10000 : Nat) : Int) ≤
      (rcv.toNat : Int) := by exact_mod_cast hcore
  rw [Int.toNat_of_nonneg (le_of_lt hx)] at this
  exact this

/-- C5 witness: the round-trip bound at a concrete successful pair of calls. -/
theorem roundtrip_deposit_le_amountIn_witness :
    (calculatePoolExpectation 1000 1000
      ((CalculatePoolPayout 1000 1000 100 30 false).1) 30).1 ≤ 100 :=
  roundtrip_deposit_le_amountIn 1000 1000 100 30 false (by norm_num)
    (by simp only [maxInt64]; norm_num) (by norm_num)
    (by simp only [maxInt64]; norm_num) (by norm_num)
    (by simp only [maxInt64]; norm_num) (by norm_num) (by norm_num)
    (by decide) (by decide) (by decide)

end Pools
